import Mathlib

/-!
Shallow embedding of the askmydocs knowledge-management server core:
the fixed-size chunker, configuration validation, the file-based vector
index and its similarity search, the document store CRUD operations and
the ingestion pipeline.  Text is modelled as `List Char`, JS numbers used
as array positions as `Int`/`Nat`, and float scores as `ℝ`.  Definitions
follow the TypeScript source; theorems check the documented behaviour.
-/

namespace AskMyDocs

/-- Whitespace as trimmed by JavaScript String.prototype.trim (ASCII part). -/
def jsWS (c : Char) : Bool :=
  c == ' ' || c == '\t' || c == '\n' || c == '\r' || c == '\x0b' || c == '\x0c'

/-- JS String.prototype.trim on a character list: drop leading and trailing
whitespace. -/
def trimChars (l : List Char) : List Char :=
  ((l.dropWhile jsWS).reverse.dropWhile jsWS).reverse

/-- JS String.prototype.trim. -/
def jsTrim (s : String) : String := ⟨trimChars s.data⟩

/-- Clamp one index argument of JS String.prototype.slice. -/
def jsSliceClamp (len : Nat) (i : Int) : Nat :=
  if i < 0 then (len + i).toNat else min i.toNat len

/-- JS String.prototype.slice(start, end) on a character list. -/
def jsSlice (l : List Char) (start stop : Int) : List Char :=
  (l.take (jsSliceClamp l.length stop)).drop (jsSliceClamp l.length start)

/-- ChunkMetadata from types/index.ts (startChar/endChar half-open interval,
recorded as JS numbers). -/
structure ChunkMetadata where
  startChar : Int
  endChar : Int
deriving DecidableEq, Repr

/-- DocumentChunk from types/index.ts. -/
structure DocumentChunk where
  id : String
  documentId : String
  content : List Char
  index : Nat
  embedding : Option (List ℚ) := none
  metadata : ChunkMetadata
deriving DecidableEq, Repr

/-- ChunkingOptions from types/index.ts. -/
structure ChunkingOptions where
  chunkSize : Int
  chunkOverlap : Int
  strategy : String
deriving DecidableEq, Repr

/-- The while-loop of FixedChunking.chunk, with explicit fuel standing for
the loop's (not always terminating) iteration; `none` means the loop did
not finish within the fuel. -/
def fixedChunkLoop (text : List Char) (chunkSize chunkOverlap : Int) :
    Nat → Int → Nat → Option (List DocumentChunk)
  | 0, _, _ => none
  | fuel + 1, position, chunkIndex =>
    if position < (text.length : Int) then
      let endPosition := min (position + chunkSize) (text.length : Int)
      let chunkText := jsSlice text position endPosition
      let trimmed := trimChars chunkText
      let stepped := position + chunkSize - chunkOverlap
      let nextPos := if stepped ≤ 0 then chunkSize else stepped
      if 0 < trimmed.length then
        (fixedChunkLoop text chunkSize chunkOverlap fuel nextPos (chunkIndex + 1)).map
          (fun rest =>
            { id := "", documentId := "", content := trimmed, index := chunkIndex,
              metadata := { startChar := position, endChar := endPosition } } :: rest)
      else
        fixedChunkLoop text chunkSize chunkOverlap fuel nextPos chunkIndex
    else
      some []

/-- FixedChunking.chunk.  For every configuration with chunkSize > chunkOverlap
the loop advances by at least one character per iteration, so the default fuel
`text.length + 2` is enough; `none` only arises when the source loop diverges. -/
def chunkFixed (text : List Char) (options : ChunkingOptions) :
    Option (List DocumentChunk) :=
  fixedChunkLoop text options.chunkSize options.chunkOverlap (text.length + 2) 0 0

/-- The (startChar, endChar) ranges of a chunk list. -/
def chunkRanges (chunks : List DocumentChunk) : List (Int × Int) :=
  chunks.map (fun c => (c.metadata.startChar, c.metadata.endChar))

/-- EmbeddingConfig from types/index.ts. -/
structure EmbeddingConfig where
  provider : String
  model : String
  apiKey : Option String := none
deriving DecidableEq, Repr

/-- ServerConfig from types/index.ts. -/
structure ServerConfig where
  storageDir : String
  chromaDbDir : String
  embeddingConfig : EmbeddingConfig
  chunkingOptions : ChunkingOptions
  maxFileSize : Int
  allowedFileTypes : List String
deriving DecidableEq, Repr

/-- validateConfig from utils/config.ts: the sequence of checks, each
throwing (here: returning an error) with the source's message. -/
def validateConfig (config : ServerConfig) : Except String Unit :=
  if config.storageDir = "" then
    Except.error "STORAGE_DIR is required"
  else if config.chromaDbDir = "" then
    Except.error "CHROMA_DB_DIR is required"
  else if ¬ (["transformers", "openai", "cohere"].contains config.embeddingConfig.provider) then
    Except.error "Invalid embedding provider"
  else if config.embeddingConfig.provider ≠ "transformers" ∧ config.embeddingConfig.apiKey = none then
    Except.error "API key required for provider"
  else if ¬ (["sentence", "paragraph", "fixed"].contains config.chunkingOptions.strategy) then
    Except.error "Invalid chunking strategy"
  else if config.chunkingOptions.chunkSize < 100 then
    Except.error "Chunk size must be at least 100 characters"
  else if config.chunkingOptions.chunkOverlap ≥ config.chunkingOptions.chunkSize then
    Except.error "Chunk overlap must be less than chunk size"
  else
    Except.ok ()

/-- The 2600-character text used in the chunking scenario. -/
def text2600 : List Char := List.replicate 2600 'a'

/-- A JSON-style metadata value (the `any`-typed values of customMetadata). -/
inductive MetaValue where
  | str (s : String)
  | num (q : ℚ)
  | boolVal (b : Bool)
  | null
deriving DecidableEq, Repr

/-- DocumentMetadata from types/index.ts.  The string-keyed maps are
association lists in JS-object key-insertion order. -/
structure DocumentMetadata where
  filename : Option String := none
  filePath : Option String := none
  fileType : String
  tags : List String
  customMetadata : List (String × MetaValue)
  size : Option Int := none
deriving DecidableEq, Repr

/-- Document from types/index.ts. Dates are epoch milliseconds. -/
structure Document where
  id : String
  content : List Char
  metadata : DocumentMetadata
  chunks : List DocumentChunk
  createdAt : Nat
  updatedAt : Nat
deriving DecidableEq, Repr

/-- One vector-index record: chunk-id maps to this (storage/chroma.ts,
file-based backend). -/
structure IndexEntry where
  embedding : List ℚ
  documentId : String
  chunkIndex : Nat
deriving DecidableEq, Repr

/-- The combined persistent state: the FileSystemStorage document files
(keyed by document id) and the vector index (a JS object, so an ordered
association list). -/
structure Storage where
  docs : List (String × Document)
  vectorIndex : List (String × IndexEntry)
deriving DecidableEq, Repr

/-- JS object property assignment `m[k] = v`: overwrite in place if the key
exists, else append (JS string-keyed objects preserve insertion order). -/
def objSet {α : Type} (m : List (String × α)) (k : String) (v : α) : List (String × α) :=
  if m.any (fun p => p.1 == k) then
    m.map (fun p => if p.1 == k then (k, v) else p)
  else
    m ++ [(k, v)]

/-- ChromaStorage.cosineSimilarity: 0 on length mismatch or a zero norm,
otherwise dot(a,b)/(|a||b|). -/
noncomputable def cosineSimilarity (a b : List ℚ) : ℝ :=
  if a.length ≠ b.length then 0
  else
    let dotProduct : ℚ := ((a.zip b).map (fun p => p.1 * p.2)).sum
    let normA : ℚ := (a.map (fun x => x * x)).sum
    let normB : ℚ := (b.map (fun x => x * x)).sum
    if normA = 0 ∨ normB = 0 then 0
    else (dotProduct : ℝ) / (Real.sqrt (normA : ℝ) * Real.sqrt (normB : ℝ))

/-- SearchOptions from types/index.ts (query text omitted: the index search
receives the already-embedded query). -/
structure SearchOpts where
  maxResults : Option Nat := none
  similarityThreshold : Option ℝ := none
  filterMetadata : Option (List (String × MetaValue)) := none
  filterTags : Option (List String) := none

/-- `options.maxResults || 10` (JS truthiness: absent or 0 falls back to 10). -/
def effMaxResults (m : Option Nat) : Nat :=
  match m with
  | none => 10
  | some n => if n = 0 then 10 else n

/-- The guard `options.similarityThreshold && score < options.similarityThreshold`
(JS truthiness: an absent or zero threshold disables the filter). -/
noncomputable def thresholdDrop (t? : Option ℝ) (score : ℝ) : Bool :=
  match t? with
  | none => false
  | some t => if t = 0 then false else decide (score < t)

/-- One element of the `similarities` array in ChromaStorage.searchSimilar. -/
structure SimEntry where
  chunkId : String
  score : ℝ
  documentId : String
  chunkIndex : Nat

/-- The first loop of searchSimilar: score every index entry, skipping the
ones rejected by the threshold guard, in index insertion order. -/
noncomputable def computeSimilarities (index : List (String × IndexEntry))
    (embedding : List ℚ) (t? : Option ℝ) : List SimEntry :=
  index.filterMap (fun p =>
    let score := cosineSimilarity embedding p.2.embedding
    if thresholdDrop t? score then none
    else some ⟨p.1, score, p.2.documentId, p.2.chunkIndex⟩)

/-- Stable insertion used to model `similarities.sort((a, b) => b.score - a.score)`:
a later element is placed before an earlier one only when its score is strictly
greater (JS Array.prototype.sort is stable). -/
noncomputable def insertDesc (x : SimEntry) : List SimEntry → List SimEntry
  | [] => [x]
  | y :: ys => if y.score < x.score then x :: y :: ys else y :: insertDesc x ys

/-- The stable descending sort by score of searchSimilar. -/
noncomputable def sortByScoreDesc (l : List SimEntry) : List SimEntry :=
  l.foldl (fun acc x => insertDesc x acc) []

/-- SearchResult from types/index.ts. -/
structure SearchResult where
  chunk : DocumentChunk
  document : Document
  score : ℝ
  distance : ℝ

/-- The body of the result-building loop of searchSimilar for one ranked
entry: load the owning document (skip if gone), apply the tag filter
(any-of, only when a non-empty filterTags was given), find the chunk by
index (skip if gone). -/
def resultFor (docs : List (String × Document)) (opts : SearchOpts)
    (r : SimEntry) : Option SearchResult :=
  match docs.lookup r.documentId with
  | none => none
  | some document =>
    let tagOk : Bool :=
      match opts.filterTags with
      | none => true
      | some fts => if fts.isEmpty then true else fts.any (fun t => document.metadata.tags.contains t)
    if tagOk then
      match document.chunks.find? (fun c => c.index == r.chunkIndex) with
      | none => none
      | some chunk => some ⟨chunk, document, r.score, 1 - r.score⟩
    else none

/-- ChromaStorage.searchSimilar: score all entries, drop the ones under a
truthy threshold, sort by descending score (stable), take the top
`maxResults`, then join to documents and apply the tag filter. -/
noncomputable def searchSimilar (st : Storage) (embedding : List ℚ)
    (opts : SearchOpts) : List SearchResult :=
  let maxResults := effMaxResults opts.maxResults
  let similarities := computeSimilarities st.vectorIndex embedding opts.similarityThreshold
  let sorted := sortByScoreDesc similarities
  let topResults := sorted.take maxResults
  topResults.filterMap (resultFor st.docs opts)

/-- ChromaStorage.storeDocument: save the document file (overwriting any
previous one), then write one vector-index entry per chunk. -/
def storeDocument (st : Storage) (document : Document) : Storage :=
  { docs := objSet st.docs document.id document,
    vectorIndex := document.chunks.foldl
      (fun ix chunk =>
        objSet ix (document.id ++ "_chunk_" ++ toString chunk.index)
          ⟨chunk.embedding.getD [], document.id, chunk.index⟩)
      st.vectorIndex }

/-- ChromaStorage.deleteDocument: remove the document file (a missing file
is tolerated) and every vector-index entry whose documentId matches. -/
def storageDeleteDocument (st : Storage) (documentId : String) : Storage :=
  { docs := st.docs.filter (fun p => ¬ p.1 == documentId),
    vectorIndex := st.vectorIndex.filter (fun p => ¬ p.2.documentId == documentId) }

/-- validateDocumentId from utils/validation.ts: non-empty and matching
`^[a-zA-Z0-9_-]+$`. -/
def validDocumentId (documentId : String) : Bool :=
  !(documentId == "") && documentId.data.all (fun c => c.isAlphanum || c == '_' || c == '-')

/-- The `{success, message}` objects returned by the management tool. -/
structure ToolResult where
  success : Bool
  message : String
deriving DecidableEq, Repr

/-- ManagementTool.deleteDocument: validate the id, check existence (a
missing document throws, caught into a failure result), then delete. -/
def mgmtDeleteDocument (st : Storage) (documentId : String) : ToolResult × Storage :=
  if documentId == "" then
    (⟨false, "Invalid document ID: must be a non-empty string"⟩, st)
  else if ¬ documentId.data.all (fun c => c.isAlphanum || c == '_' || c == '-') then
    (⟨false, "Invalid document ID: can only contain alphanumeric characters, hyphens, and underscores"⟩, st)
  else
    match st.docs.lookup documentId with
    | none => (⟨false, "Document not found: " ++ documentId⟩, st)
    | some _ =>
      (⟨true, "Document " ++ documentId ++ " deleted successfully"⟩,
       storageDeleteDocument st documentId)

/-- validateTags from utils/validation.ts: reject over 100 tags, then trim
every tag and drop the empty ones (no deduplication in the source). -/
def validateTags (tags : List String) : Except String (List String) :=
  if tags.length > 100 then Except.error "Invalid tags: cannot exceed 100 tags"
  else Except.ok ((tags.map jsTrim).filter (fun tag => 0 < tag.length))

/-- JS object spread `{...base, ...updates}` on string-keyed records:
base keys keep their position (with updated values), new keys are appended
in updates order. -/
def recMerge (base updates : List (String × MetaValue)) : List (String × MetaValue) :=
  base.map (fun p =>
    match updates.lookup p.1 with
    | some v => (p.1, v)
    | none => p) ++
  updates.filter (fun q => (base.lookup q.1).isNone)

/-- One character of JSON.stringify string escaping: quote, backslash and
the named control escapes become two characters, other control characters
become a six-character \u00xx escape, everything else is kept. -/
def jsonEscapeChar (c : Char) : List Char :=
  if c = '"' then ['\\', '"']
  else if c = '\\' then ['\\', '\\']
  else if c = '\x08' then ['\\', 'b']
  else if c = '\x09' then ['\\', 't']
  else if c = '\x0a' then ['\\', 'n']
  else if c = '\x0c' then ['\\', 'f']
  else if c = '\x0d' then ['\\', 'r']
  else if c.val < 32 then
    ['\\', 'u', '0', '0', Nat.digitChar (c.toNat / 16), Nat.digitChar (c.toNat % 16)]
  else [c]

/-- JSON.stringify of a string: quoted and escaped.  (Lengths count code
points; UTF-16 surrogate pairs are not modelled.) -/
def jsonStringChars (s : String) : List Char :=
  '"' :: (s.data.map jsonEscapeChar).flatten ++ ['"']

/-- JSON.stringify of one metadata value.  Integral numbers print their
decimal digits exactly as in JS; a non-integral rational stands in for the
float's decimal rendering. -/
def jsonValueChars : MetaValue → List Char
  | MetaValue.str s => jsonStringChars s
  | MetaValue.num q => if q.den = 1 then q.num.repr.data else (toString q).data
  | MetaValue.boolVal b => (cond b "true" "false").data
  | MetaValue.null => "null".data

/-- JSON.stringify of a string-keyed record, keys in insertion order, no
whitespace. -/
def jsonRecordChars (m : List (String × MetaValue)) : List Char :=
  '\x7b' :: List.intercalate [',']
    (m.map (fun p => jsonStringChars p.1 ++ [':'] ++ jsonValueChars p.2)) ++ ['\x7d']

/-- validateMetadata from utils/validation.ts: reject metadata whose JSON
serialization exceeds 100000 characters.  (The typeof-object/null guard is
statically satisfied by the typed record model.) -/
def validateMetadata (metadata : List (String × MetaValue)) : Except String Unit :=
  if (jsonRecordChars metadata).length > 100000 then
    Except.error "Invalid metadata: exceeds maximum size of 100KB"
  else Except.ok ()

/-- The Partial DocumentMetadata assembled by ManagementTool.updateDocumentMetadata. -/
structure MetadataUpdates where
  customMetadata : Option (List (String × MetaValue)) := none
  tags : Option (List String) := none
deriving DecidableEq, Repr

/-- ChromaStorage.updateDocumentMetadata: load the document (missing throws),
spread the updates over its metadata, stamp updatedAt, save. -/
def chromaUpdateDocumentMetadata (st : Storage) (now : Nat) (documentId : String)
    (updates : MetadataUpdates) : Except String Storage :=
  match st.docs.lookup documentId with
  | none => Except.error ("Document not found: " ++ documentId)
  | some document =>
    let md := document.metadata
    let md' := { md with
      customMetadata := updates.customMetadata.getD md.customMetadata,
      tags := updates.tags.getD md.tags }
    Except.ok { st with docs := objSet st.docs documentId { document with metadata := md', updatedAt := now } }

/-- ManagementTool.updateDocumentMetadata: validate the id, validate the
supplied metadata (its JSON size), validate the supplied tags, shallow-merge
the supplied customMetadata into the existing one, replace tags wholesale
when provided, and persist; every thrown validation error is caught into a
failure result. -/
def mgmtUpdateDocumentMetadata (st : Storage) (now : Nat) (documentId : String)
    (metadata : Option (List (String × MetaValue))) (tags : Option (List String)) :
    ToolResult × Storage :=
  if documentId == "" then
    (⟨false, "Invalid document ID: must be a non-empty string"⟩, st)
  else if ¬ documentId.data.all (fun c => c.isAlphanum || c == '_' || c == '-') then
    (⟨false, "Invalid document ID: can only contain alphanumeric characters, hyphens, and underscores"⟩, st)
  else
    match (match metadata with
           | none => Except.ok ()
           | some mm => validateMetadata mm) with
    | Except.error msg => (⟨false, msg⟩, st)
    | Except.ok _ =>
      match (match tags with
             | none => Except.ok (none : Option (List String))
             | some ts => (validateTags ts).map some) with
      | Except.error msg => (⟨false, msg⟩, st)
      | Except.ok vtags =>
        match st.docs.lookup documentId with
        | none => (⟨false, "Document not found: " ++ documentId⟩, st)
        | some document =>
          let updates : MetadataUpdates :=
            { customMetadata := metadata.map (fun m => recMerge document.metadata.customMetadata m),
              tags := vtags }
          match chromaUpdateDocumentMetadata st now documentId updates with
          | Except.error msg => (⟨false, msg⟩, st)
          | Except.ok st' => (⟨true, "Document metadata updated successfully"⟩, st')

/-- sanitizeFilename from utils/validation.ts: replace every character
outside [a-zA-Z0-9._-] by an underscore. -/
def sanitizeFilename (filename : String) : String :=
  ⟨filename.data.map (fun c =>
    if c.isAlphanum || c == '.' || c == '_' || c == '-' then c else '_')⟩

/-- IngestTool.generateDocumentId: `doc_${timestamp}_${hash8}` where hash8
is the first 8 hex digits of the MD5 of `${sanitized}_${timestamp}`.  MD5 is
a pure external hash, abstracted as the function argument `md5hex8`. -/
def generateDocumentId (md5hex8 : String → String) (filename : String)
    (timestamp : Nat) : String :=
  "doc_" ++ toString timestamp ++ "_" ++
    md5hex8 (sanitizeFilename filename ++ "_" ++ toString timestamp)

/-- path.basename for POSIX paths. -/
def basename (p : String) : String := (p.splitOn "/").getLastD p

/-- IngestResult.status. -/
inductive IngestStatus where
  | success
  | error
deriving DecidableEq, Repr

/-- IngestResult from types/index.ts. -/
structure IngestResult where
  documentId : String
  chunksCreated : Nat
  status : IngestStatus
  message : String
deriving DecidableEq, Repr

/-- BatchIngestResult from types/index.ts (errors as (file, error) pairs). -/
structure BatchIngestResult where
  totalFiles : Nat
  successCount : Nat
  failedCount : Nat
  documents : List IngestResult
  errors : List (String × String)
deriving DecidableEq, Repr

/-- The collaborators of the ingestion pipeline: text extraction
(validations + processFile; throws become errors), the embedding provider's
batch call, the MD5 hash, and the clock. -/
structure IngestEnvironment where
  extractFile : String → Except String (List Char)
  embedTexts : List (List Char) → Except String (List (List ℚ))
  md5hex8 : String → String
  now : Nat

/-- FixedChunking.chunk as used by the pipeline; fuel exhaustion (the
diverging loop) surfaces as an error so the model stays total. -/
def chunkFixedE (options : ChunkingOptions) (text : List Char) :
    Except String (List DocumentChunk) :=
  match chunkFixed text options with
  | some chunks => Except.ok chunks
  | none => Except.error "chunking did not terminate"

/-- getChunkingStrategy: dispatch on the configured strategy.  Only the
fixed strategy is modelled; the sentence/paragraph chunkers are separate
strategies no claim depends on. -/
def getChunkingStrategyE (options : ChunkingOptions) :
    Except String (List Char → Except String (List DocumentChunk)) :=
  if options.strategy == "fixed" then Except.ok (chunkFixedE options)
  else if options.strategy == "sentence" || options.strategy == "paragraph" then
    Except.error "strategy not modelled"
  else Except.error ("Unknown chunking strategy: " ++ options.strategy)

/-- IngestTool.ingestDocument for a file path: extract, chunk, batch-embed,
assemble the document, store.  Every failure is caught into an error result
(status error, message, empty id, zero chunks). -/
def ingestDocumentFile (env : IngestEnvironment) (cfg : ServerConfig)
    (st : Storage) (filePath : String) : IngestResult × Storage :=
  match env.extractFile filePath with
  | Except.error msg => (⟨"", 0, IngestStatus.error, msg⟩, st)
  | Except.ok content =>
    let filename := basename filePath
    let documentId := generateDocumentId env.md5hex8 filename env.now
    match getChunkingStrategyE cfg.chunkingOptions with
    | Except.error msg => (⟨"", 0, IngestStatus.error, msg⟩, st)
    | Except.ok chunker =>
      match chunker content with
      | Except.error msg => (⟨"", 0, IngestStatus.error, msg⟩, st)
      | Except.ok chunks =>
        match env.embedTexts (chunks.map (fun c => c.content)) with
        | Except.error msg => (⟨"", 0, IngestStatus.error, msg⟩, st)
        | Except.ok embeddings =>
          let processedChunks := chunks.mapIdx (fun i chunk =>
            { chunk with
              id := documentId ++ "_chunk_" ++ toString i,
              documentId := documentId,
              embedding := embeddings[i]? })
          let document : Document :=
            { id := documentId,
              content := content,
              metadata :=
                { filename := some filename,
                  filePath := some filePath,
                  fileType := "",
                  tags := [],
                  customMetadata := [],
                  size := some content.length },
              chunks := processedChunks,
              createdAt := env.now,
              updatedAt := env.now }
          (⟨documentId, processedChunks.length, IngestStatus.success,
            "Document ingested successfully with " ++ toString processedChunks.length ++ " chunks"⟩,
           storeDocument st document)

/-- The loop of IngestTool.batchIngest: ingest each file in order, count
successes and failures, and record (file, message) for every failure;
no failure aborts the remaining files. -/
def batchIngestGo (env : IngestEnvironment) (cfg : ServerConfig) :
    List String → Storage → List IngestResult × List (String × String) × Nat × Nat × Storage
  | [], st => ([], [], 0, 0, st)
  | file :: rest, st =>
    let step := ingestDocumentFile env cfg st file
    let acc := batchIngestGo env cfg rest step.2
    match step.1.status with
    | IngestStatus.success =>
      (step.1 :: acc.1, acc.2.1, acc.2.2.1 + 1, acc.2.2.2.1, acc.2.2.2.2)
    | IngestStatus.error =>
      (step.1 :: acc.1, (file, step.1.message) :: acc.2.1, acc.2.2.1, acc.2.2.2.1 + 1, acc.2.2.2.2)

/-- IngestTool.batchIngest over an already-discovered file list. -/
def batchIngest (env : IngestEnvironment) (cfg : ServerConfig)
    (files : List String) (st : Storage) : BatchIngestResult × Storage :=
  let acc := batchIngestGo env cfg files st
  (⟨files.length, acc.2.2.1, acc.2.2.2.1, acc.1, acc.2.1⟩, acc.2.2.2.2)

/-- The descending-score order maintained by the search ranking. -/
def scoreGE (x y : SimEntry) : Prop := y.score ≤ x.score

/-- A document with two chunks, used to exhibit the tie-breaking behaviour. -/
def docTie : Document :=
  { id := "d", content := [],
    metadata := { fileType := "txt", tags := [], customMetadata := [] },
    chunks :=
      [ { id := "d_chunk_0", documentId := "d", content := ['x'], index := 0,
          embedding := some [0], metadata := { startChar := 0, endChar := 1 } },
        { id := "d_chunk_1", documentId := "d", content := ['y'], index := 1,
          embedding := some [0], metadata := { startChar := 1, endChar := 2 } } ],
    createdAt := 0, updatedAt := 0 }

/-- A state whose vector index lists the higher chunk-id first. -/
def stTie : Storage :=
  { docs := [("d", docTie)],
    vectorIndex := [("d_chunk_1", ⟨[0], "d", 1⟩), ("d_chunk_0", ⟨[0], "d", 0⟩)] }

/-- A document whose customMetadata has no "author" key. -/
def docMeta : Document :=
  { id := "m", content := [],
    metadata := { fileType := "txt", tags := ["notes"], customMetadata := [("year", MetaValue.num 2024)] },
    chunks :=
      [ { id := "m_chunk_0", documentId := "m", content := ['z'], index := 0,
          embedding := some [0], metadata := { startChar := 0, endChar := 1 } } ],
    createdAt := 0, updatedAt := 0 }

/-- A state with one indexed document, used for the metadata-filter check. -/
def stMeta : Storage :=
  { docs := [("m", docMeta)], vectorIndex := [("m_chunk_0", ⟨[0], "m", 0⟩)] }

/-- A document used for the delete-twice check. -/
def docDel : Document :=
  { id := "d1", content := ['h'],
    metadata := { fileType := "txt", tags := [], customMetadata := [] },
    chunks := [], createdAt := 0, updatedAt := 0 }

/-- A state containing docDel and one of its vector entries. -/
def stDel : Storage :=
  { docs := [("d1", docDel)], vectorIndex := [("d1_chunk_0", ⟨[0], "d1", 0⟩)] }

/-- A stand-in for the (pure) truncated MD5 hex digest. -/
def hashStub : String → String := fun _ => "0a1b2c3d"

/-- The batch-ingestion scenario environment: file 3 fails extraction with
the text processor's empty-file error, every other file extracts
"hello world"; embeddings always succeed. -/
def env5 : IngestEnvironment :=
  { extractFile := fun f =>
      if f == "f3.txt" then Except.error "Text file processing failed: File is empty"
      else Except.ok "hello world".data,
    embedTexts := fun ts => Except.ok (ts.map (fun _ => [1])),
    md5hex8 := fun _ => "00000000",
    now := 0 }

/-- The configuration for the batch scenario (fixed/1000/200). -/
def cfg5 : ServerConfig :=
  { storageDir := "/s", chromaDbDir := "/c",
    embeddingConfig := { provider := "transformers", model := "m" },
    chunkingOptions := { chunkSize := 1000, chunkOverlap := 200, strategy := "fixed" },
    maxFileSize := 104857600, allowedFileTypes := ["txt"] }

/-- The five files of the batch scenario. -/
def files5 : List String := ["f1.txt", "f2.txt", "f3.txt", "f4.txt", "f5.txt"]

/-- A document carrying the scenario customMetadata {"year": 2024}. -/
def docYear : Document :=
  { id := "docmeta", content := [],
    metadata := { fileType := "txt", tags := ["old"], customMetadata := [("year", MetaValue.num 2024)] },
    chunks := [], createdAt := 0, updatedAt := 0 }

/-- A state containing docYear. -/
def stYear : Storage := { docs := [("docmeta", docYear)], vectorIndex := [] }

/-! Lemmas about trimming and slicing. -/

theorem dropWhile_eq_self_of_forall {p : Char → Bool} {l : List Char}
    (h : ∀ c ∈ l, p c = false) : l.dropWhile p = l := by
  cases l with
  | nil => rfl
  | cons a as => simp [List.dropWhile_cons, h a (List.mem_cons_self a as)]

theorem trimChars_eq_self {l : List Char} (h : ∀ c ∈ l, jsWS c = false) :
    trimChars l = l := by
  unfold trimChars
  rw [dropWhile_eq_self_of_forall h,
    dropWhile_eq_self_of_forall (fun c hc => h c (List.mem_reverse.mp hc)),
    List.reverse_reverse]

theorem mem_of_mem_jsSlice {c : Char} {l : List Char} {s e : Int}
    (h : c ∈ jsSlice l s e) : c ∈ l :=
  List.mem_of_mem_take (List.mem_of_mem_drop h)

theorem jsSlice_length_of {l : List Char} {s e : Int} (h0 : 0 ≤ s) (hse : s ≤ e)
    (hel : e ≤ (l.length : Int)) : ((jsSlice l s e).length : Int) = e - s := by
  unfold jsSlice jsSliceClamp
  rw [if_neg (by omega), if_neg (by omega), List.length_drop, List.length_take]
  omega

/-! Lemmas about the fixed-chunking loop. -/

theorem fixedChunkLoop_stop (text : List Char) (s o : Int) (fuel : Nat)
    (position : Int) (ci : Nat) (h : ¬ position < (text.length : Int)) :
    fixedChunkLoop text s o (fuel + 1) position ci = some [] := by
  simp only [fixedChunkLoop]
  rw [if_neg h]

theorem fixedChunkLoop_advance (text : List Char)
    (hws : ∀ c ∈ text, jsWS c = false) (s o : Int) (fuel : Nat)
    (position : Int) (ci : Nat) (h0 : 0 ≤ position)
    (hlt : position < (text.length : Int)) (hs : 0 < s)
    (hstep : 0 < position + s - o) :
    fixedChunkLoop text s o (fuel + 1) position ci =
      (fixedChunkLoop text s o fuel (position + s - o) (ci + 1)).map
        (fun rest =>
          { id := "", documentId := "",
            content := jsSlice text position (min (position + s) (text.length : Int)),
            index := ci,
            metadata := { startChar := position,
                          endChar := min (position + s) (text.length : Int) } } :: rest) := by
  have hpe : position < min (position + s) (text.length : Int) :=
    lt_min (by omega) hlt
  have htrim : trimChars (jsSlice text position (min (position + s) (text.length : Int))) =
      jsSlice text position (min (position + s) (text.length : Int)) :=
    trimChars_eq_self (fun c hc => hws c (mem_of_mem_jsSlice hc))
  have hlen : ((jsSlice text position (min (position + s) (text.length : Int))).length : Int) =
      min (position + s) (text.length : Int) - position :=
    jsSlice_length_of h0 (le_of_lt hpe) (min_le_right _ _)
  have hpos : 0 < (jsSlice text position (min (position + s) (text.length : Int))).length := by
    omega
  simp only [fixedChunkLoop]
  rw [if_pos hlt, htrim, if_pos hpos, if_neg (by omega)]

theorem chunkFixed_2600 (text : List Char) (hlen : text.length = 2600)
    (hws : ∀ c ∈ text, jsWS c = false) :
    chunkFixed text ⟨1000, 200, "fixed"⟩ =
      some [ { id := "", documentId := "", content := jsSlice text 0 1000, index := 0,
               metadata := { startChar := 0, endChar := 1000 } },
             { id := "", documentId := "", content := jsSlice text 800 1800, index := 1,
               metadata := { startChar := 800, endChar := 1800 } },
             { id := "", documentId := "", content := jsSlice text 1600 2600, index := 2,
               metadata := { startChar := 1600, endChar := 2600 } },
             { id := "", documentId := "", content := jsSlice text 2400 2600, index := 3,
               metadata := { startChar := 2400, endChar := 2600 } } ] := by
  have h2600 : (text.length : Int) = 2600 := by rw [hlen]; norm_num
  unfold chunkFixed
  rw [hlen]
  rw [show (2600 + 2 : Nat) = 2601 + 1 from rfl,
    fixedChunkLoop_advance text hws 1000 200 2601 0 0 (by norm_num)
      (by rw [h2600]; norm_num) (by norm_num) (by norm_num)]
  rw [show ((0 : Int) + 1000 - 200) = 800 from by norm_num,
    show (2601 : Nat) = 2600 + 1 from rfl,
    fixedChunkLoop_advance text hws 1000 200 2600 800 1 (by norm_num)
      (by rw [h2600]; norm_num) (by norm_num) (by norm_num)]
  rw [show ((800 : Int) + 1000 - 200) = 1600 from by norm_num,
    show (2600 : Nat) = 2599 + 1 from rfl,
    fixedChunkLoop_advance text hws 1000 200 2599 1600 2 (by norm_num)
      (by rw [h2600]; norm_num) (by norm_num) (by norm_num)]
  rw [show ((1600 : Int) + 1000 - 200) = 2400 from by norm_num,
    show (2599 : Nat) = 2598 + 1 from rfl,
    fixedChunkLoop_advance text hws 1000 200 2598 2400 3 (by norm_num)
      (by rw [h2600]; norm_num) (by norm_num) (by norm_num)]
  rw [show ((2400 : Int) + 1000 - 200) = 3200 from by norm_num,
    show (2598 : Nat) = 2597 + 1 from rfl,
    fixedChunkLoop_stop text 1000 200 2597 3200 4 (by rw [h2600]; norm_num)]
  simp only [Option.map_some', h2600]
  norm_num [min_def]

theorem text2600_length : text2600.length = 2600 := by
  rw [text2600, List.length_replicate]

theorem text2600_no_ws : ∀ c ∈ text2600, jsWS c = false :=
  fun _ hc => List.eq_of_mem_replicate hc ▸ rfl

/-- C1 (counterexample): on a concrete 2600-character text the fixed chunker
with size 1000 and overlap 200 does not produce the claimed 3 chunks: the
loop also visits position 2400 and emits a fourth chunk. -/
theorem c1_three_chunks_refuted :
    (chunkFixed text2600 ⟨1000, 200, "fixed"⟩).map chunkRanges ≠
      some [(0, 1000), (800, 1800), (1600, 2600)] := by
  rw [chunkFixed_2600 text2600 text2600_length text2600_no_ws]
  simp [chunkRanges]

/-- C1 (amended): for every 2600-character text with no whitespace, chunking
with strategy fixed, size 1000, overlap 200 produces exactly 4 chunks with
(startChar, endChar) ranges [0,1000), [800,1800), [1600,2600), [2400,2600):
the window slides by 800, so a final short window [2400,2600) is also emitted. -/
theorem c1_chunk2600_ranges (text : List Char) (hlen : text.length = 2600)
    (hws : ∀ c ∈ text, jsWS c = false) :
    (chunkFixed text ⟨1000, 200, "fixed"⟩).map chunkRanges =
      some [(0, 1000), (800, 1800), (1600, 2600), (2400, 2600)] := by
  rw [chunkFixed_2600 text hlen hws]
  rfl

/-- C1 witness: the amended theorem applied to the all-'a' 2600-character text. -/
theorem c1_chunk2600_ranges_witness :
    (chunkFixed text2600 ⟨1000, 200, "fixed"⟩).map chunkRanges =
      some [(0, 1000), (800, 1800), (1600, 2600), (2400, 2600)] :=
  c1_chunk2600_ranges text2600 text2600_length text2600_no_ws

/-- C2 (counterexample): with size 100 ≤ overlap 150, FixedChunking.chunk on
the text "abc" raises nothing and returns one chunk — it neither fails with a
ConfigError nor refuses to return a chunk sequence. -/
theorem c2_chunk_runs_with_size_le_overlap :
    ((100 : Int) ≤ 150) ∧
    chunkFixed ['a', 'b', 'c'] ⟨100, 150, "fixed"⟩ =
      some [{ id := "", documentId := "", content := ['a', 'b', 'c'], index := 0,
              metadata := { startChar := 0, endChar := 3 } }] := by
  exact ⟨by norm_num, by decide⟩

/-- C2 (amended): FixedChunking.chunk itself performs no size/overlap
validation (it can return chunks normally when size ≤ overlap); the
configuration validator is what rejects such configurations: validateConfig
fails on every config whose chunk overlap is at least the chunk size. -/
theorem c2_validateConfig_rejects (cfg : ServerConfig)
    (h : cfg.chunkingOptions.chunkSize ≤ cfg.chunkingOptions.chunkOverlap) :
    ∃ msg, validateConfig cfg = Except.error msg := by
  unfold validateConfig
  split_ifs with h1 h2 h3 h4 h5 h6
  all_goals exact ⟨_, rfl⟩

/-- C2 witness: a concrete configuration with size 100 and overlap 150 is
rejected by validateConfig. -/
theorem c2_validateConfig_rejects_witness :
    ∃ msg, validateConfig
      { storageDir := "s", chromaDbDir := "c",
        embeddingConfig := { provider := "transformers", model := "m" },
        chunkingOptions := { chunkSize := 100, chunkOverlap := 150, strategy := "fixed" },
        maxFileSize := 0, allowedFileTypes := [] } = Except.error msg :=
  c2_validateConfig_rejects _ (by norm_num)

/-! Lemmas about the ranking of searchSimilar. -/

theorem mem_insertDesc {x y : SimEntry} {l : List SimEntry} :
    y ∈ insertDesc x l ↔ y = x ∨ y ∈ l := by
  induction l with
  | nil => simp [insertDesc]
  | cons a as ih =>
    simp only [insertDesc]
    split
    · simp [List.mem_cons]
    · simp only [List.mem_cons, ih]
      tauto

theorem mem_foldl_insertDesc (l : List SimEntry) (acc : List SimEntry)
    (y : SimEntry) :
    (y ∈ l.foldl (fun acc x => insertDesc x acc) acc) ↔ y ∈ acc ∨ y ∈ l := by
  induction l generalizing acc with
  | nil => simp
  | cons a as ih =>
    rw [List.foldl_cons, ih]
    rw [mem_insertDesc]
    simp [List.mem_cons]
    tauto

theorem mem_sortByScoreDesc {y : SimEntry} {l : List SimEntry} :
    y ∈ sortByScoreDesc l ↔ y ∈ l := by
  unfold sortByScoreDesc
  rw [mem_foldl_insertDesc]
  simp

theorem sorted_insertDesc {x : SimEntry} {l : List SimEntry}
    (h : l.Sorted scoreGE) : (insertDesc x l).Sorted scoreGE := by
  induction l with
  | nil => simp [insertDesc]
  | cons a as ih =>
    rw [List.sorted_cons] at h
    simp only [insertDesc]
    split
    · rename_i hlt
      rw [List.sorted_cons]
      refine ⟨fun b hb => ?_, List.sorted_cons.mpr h⟩
      rcases List.mem_cons.mp hb with rfl | hb'
      · exact le_of_lt hlt
      · exact le_trans (h.1 b hb') (le_of_lt hlt)
    · rename_i hge
      rw [List.sorted_cons]
      refine ⟨fun b hb => ?_, ih h.2⟩
      rcases mem_insertDesc.mp hb with rfl | hb'
      · exact not_lt.mp hge
      · exact h.1 b hb'

theorem sorted_sortByScoreDesc (l : List SimEntry) :
    (sortByScoreDesc l).Sorted scoreGE := by
  have aux : ∀ (ys acc : List SimEntry), acc.Sorted scoreGE →
      (ys.foldl (fun acc x => insertDesc x acc) acc).Sorted scoreGE := by
    intro ys
    induction ys with
    | nil => exact fun acc h => h
    | cons a as ih => exact fun acc h => ih _ (sorted_insertDesc h)
  exact aux l [] (by simp)

theorem resultFor_characterize {docs : List (String × Document)}
    {opts : SearchOpts} {r : SimEntry} {res : SearchResult}
    (h : resultFor docs opts r = some res) :
    res.score = r.score ∧ docs.lookup r.documentId = some res.document := by
  unfold resultFor at h
  cases hl : docs.lookup r.documentId with
  | none => rw [hl] at h; exact absurd h (by simp)
  | some document =>
    rw [hl] at h
    simp only at h
    split at h
    · split at h
      · exact absurd h (by simp)
      · rename_i chunk hc
        have hres := Option.some.inj h
        subst hres
        exact ⟨rfl, rfl⟩
    · exact absurd h (by simp)

theorem resultFor_tags {docs : List (String × Document)} {opts : SearchOpts}
    {r : SimEntry} {res : SearchResult} {fts : List String}
    (h : resultFor docs opts r = some res) (hft : opts.filterTags = some fts)
    (hne : fts ≠ []) :
    ∃ t ∈ fts, res.document.metadata.tags.contains t = true := by
  have hie : fts.isEmpty = false := by
    cases fts with
    | nil => exact absurd rfl hne
    | cons a as => rfl
  unfold resultFor at h
  cases hl : docs.lookup r.documentId with
  | none => rw [hl] at h; exact absurd h (by simp)
  | some document =>
    rw [hl] at h
    simp only [hft, hie, Bool.false_eq_true, if_false] at h
    by_cases hany : (fts.any fun t => document.metadata.tags.contains t) = true
    · have hdoc : res.document = document := by
        rw [if_pos hany] at h
        split at h
        · exact absurd h (by simp)
        · rename_i chunk hc
          have hres := Option.some.inj h
          subst hres
          rfl
      obtain ⟨t, ht, htags⟩ := List.any_eq_true.mp hany
      exact ⟨t, ht, by rw [hdoc]; exact htags⟩
    · rw [if_neg hany] at h
      exact absurd h (by simp)

theorem score_filterMap_sublist (docs : List (String × Document))
    (opts : SearchOpts) (l : List SimEntry) :
    List.Sublist ((l.filterMap (resultFor docs opts)).map SearchResult.score)
      (l.map SimEntry.score) := by
  induction l with
  | nil => simp
  | cons r rs ih =>
    rw [List.filterMap_cons]
    cases hres : resultFor docs opts r with
    | none =>
      simp only [List.map_cons]
      exact ih.cons _
    | some res =>
      simp only [List.map_cons, (resultFor_characterize hres).1]
      exact ih.cons₂ _

theorem searchSimilar_entry_of_mem {st : Storage} {emb : List ℚ}
    {opts : SearchOpts} {r : SearchResult}
    (h : r ∈ searchSimilar st emb opts) :
    ∃ p ∈ st.vectorIndex,
      r.score = cosineSimilarity emb p.2.embedding ∧
      thresholdDrop opts.similarityThreshold (cosineSimilarity emb p.2.embedding) = false := by
  unfold searchSimilar at h
  obtain ⟨a, ha, hfa⟩ := List.mem_filterMap.mp h
  have ha' : a ∈ computeSimilarities st.vectorIndex emb opts.similarityThreshold :=
    mem_sortByScoreDesc.mp (List.take_subset _ _ ha)
  obtain ⟨p, hp, hpa⟩ := List.mem_filterMap.mp ha'
  simp only at hpa
  split at hpa
  · exact absurd hpa (by simp)
  · rename_i hdrop
    cases hpa
    exact ⟨p, hp, (resultFor_characterize hfa).1, by simpa using hdrop⟩

theorem searchSimilar_as_pipeline (st : Storage) (emb : List ℚ) (opts : SearchOpts) :
    searchSimilar st emb opts =
      ((sortByScoreDesc (computeSimilarities st.vectorIndex emb opts.similarityThreshold)).take
        (effMaxResults opts.maxResults)).filterMap (resultFor st.docs opts) := rfl

/-- C3 (amended): search returns at most `maxResults` hits, sorted by
descending score, and every returned hit scores at least any nonzero
threshold that was supplied; score ties are kept in vector-index insertion
order (the sort is stable), not re-ordered by chunk-id. -/
theorem c3_search_ranking (st : Storage) (emb : List ℚ) (opts : SearchOpts) :
    (searchSimilar st emb opts).length ≤ effMaxResults opts.maxResults ∧
    ((searchSimilar st emb opts).map SearchResult.score).Sorted (fun a b => b ≤ a) ∧
    (∀ r ∈ searchSimilar st emb opts, ∀ t : ℝ,
      opts.similarityThreshold = some t → t ≠ 0 → t ≤ r.score) := by
  refine ⟨?_, ?_, ?_⟩
  · rw [searchSimilar_as_pipeline]
    exact le_trans (List.length_filterMap_le _ _) (List.length_take_le _ _)
  · rw [searchSimilar_as_pipeline]
    have htake : ((sortByScoreDesc (computeSimilarities st.vectorIndex emb
        opts.similarityThreshold)).take (effMaxResults opts.maxResults)).Sorted scoreGE :=
      List.Pairwise.sublist (List.take_sublist _ _) (sorted_sortByScoreDesc _)
    have hmap : (((sortByScoreDesc (computeSimilarities st.vectorIndex emb
        opts.similarityThreshold)).take (effMaxResults opts.maxResults)).map
          SimEntry.score).Sorted (fun a b => b ≤ a) :=
      List.pairwise_map.mpr htake
    exact List.Pairwise.sublist (score_filterMap_sublist _ _ _) hmap
  · intro r hr t hteq ht0
    obtain ⟨p, hp, hscore, hdrop⟩ := searchSimilar_entry_of_mem hr
    rw [hteq] at hdrop
    have hdrop' : (if t = 0 then false
        else decide (cosineSimilarity emb p.2.embedding < t)) = false := hdrop
    rw [if_neg ht0] at hdrop'
    rw [hscore]
    exact not_lt.mp (by simpa using hdrop')

/-- C3 witness: the ranking theorem applied to the two-entry tie state. -/
theorem c3_search_ranking_witness :
    (searchSimilar stTie [0] ⟨none, none, none, none⟩).length ≤ effMaxResults none ∧
    ((searchSimilar stTie [0] ⟨none, none, none, none⟩).map SearchResult.score).Sorted
      (fun a b => b ≤ a) ∧
    (∀ r ∈ searchSimilar stTie [0] ⟨none, none, none, none⟩, ∀ t : ℝ,
      (none : Option ℝ) = some t → t ≠ 0 → t ≤ r.score) :=
  c3_search_ranking stTie [0] ⟨none, none, none, none⟩

/-- C3 (counterexample): two entries with equal (tied) score 0, indexed with
the larger chunk-id first, are returned in index order "d_chunk_1",
"d_chunk_0" — not in ascending chunk-id order. -/
theorem c3_tie_not_id_ordered :
    ((searchSimilar stTie [0] ⟨none, none, none, none⟩).map SearchResult.score = [0, 0]) ∧
    ((searchSimilar stTie [0] ⟨none, none, none, none⟩).map (fun r => r.chunk.id) =
      ["d_chunk_1", "d_chunk_0"]) := by
  have hcos : cosineSimilarity [0] [0] = 0 := by
    unfold cosineSimilarity
    norm_num
  have h1 : computeSimilarities stTie.vectorIndex [0] none =
      [⟨"d_chunk_1", (0 : ℝ), "d", 1⟩, ⟨"d_chunk_0", (0 : ℝ), "d", 0⟩] := by
    unfold computeSimilarities
    simp only [show stTie.vectorIndex =
        [("d_chunk_1", ⟨[0], "d", 1⟩), ("d_chunk_0", ⟨[0], "d", 0⟩)] from rfl]
    simp only [List.filterMap_cons, List.filterMap_nil]
    simp [thresholdDrop, hcos]
  have h2 : sortByScoreDesc [⟨"d_chunk_1", (0 : ℝ), "d", 1⟩, ⟨"d_chunk_0", (0 : ℝ), "d", 0⟩] =
      [⟨"d_chunk_1", (0 : ℝ), "d", 1⟩, ⟨"d_chunk_0", (0 : ℝ), "d", 0⟩] := by
    unfold sortByScoreDesc
    simp only [List.foldl_cons, List.foldl_nil]
    rw [show insertDesc ⟨"d_chunk_1", (0 : ℝ), "d", 1⟩ [] =
        [⟨"d_chunk_1", (0 : ℝ), "d", 1⟩] from rfl]
    simp only [insertDesc]
    rw [if_neg (lt_irrefl (0 : ℝ))]
  rw [searchSimilar_as_pipeline, h1, h2]
  exact ⟨rfl, rfl⟩

/-- C5 (amended): searchSimilar enforces the tag filter (each returned hit's
document carries at least one of a supplied non-empty filterTags list) and
returns at most `maxResults` hits, but it never reads filterMetadata: the
result is identical for every filterMetadata value. -/
theorem c5_search_filters (st : Storage) (emb : List ℚ) (opts : SearchOpts) :
    (∀ m, searchSimilar st emb { opts with filterMetadata := m } = searchSimilar st emb opts) ∧
    (∀ r ∈ searchSimilar st emb opts, ∀ fts, opts.filterTags = some fts → fts ≠ [] →
      ∃ t ∈ fts, r.document.metadata.tags.contains t = true) ∧
    (searchSimilar st emb opts).length ≤ effMaxResults opts.maxResults := by
  refine ⟨fun m => rfl, ?_, ?_⟩
  · intro r hr fts hft hne
    rw [searchSimilar_as_pipeline] at hr
    obtain ⟨a, ha, hfa⟩ := List.mem_filterMap.mp hr
    exact resultFor_tags hfa hft hne
  · rw [searchSimilar_as_pipeline]
    exact le_trans (List.length_filterMap_le _ _) (List.length_take_le _ _)

/-- C5 witness: the filter theorem applied to the one-document state. -/
theorem c5_search_filters_witness :
    (∀ m, searchSimilar stMeta [0] ⟨none, none, m, none⟩ =
      searchSimilar stMeta [0] ⟨none, none, none, none⟩) ∧
    (∀ r ∈ searchSimilar stMeta [0] ⟨none, none, none, none⟩, ∀ fts,
      (none : Option (List String)) = some fts → fts ≠ [] →
      ∃ t ∈ fts, r.document.metadata.tags.contains t = true) ∧
    (searchSimilar stMeta [0] ⟨none, none, none, none⟩).length ≤ effMaxResults none :=
  c5_search_filters stMeta [0] ⟨none, none, none, none⟩

/-- C5 (counterexample): a search with filterMetadata {"author": "X"} still
returns the hit whose document has no "author" key at all — the metadata
filter is never applied. -/
theorem c5_filterMetadata_not_applied :
    ((searchSimilar stMeta [0] ⟨none, none, some [("author", MetaValue.str "X")], none⟩).map
      (fun r => r.document.id) = ["m"]) ∧
    docMeta.metadata.customMetadata.lookup "author" = none := by
  exact ⟨rfl, rfl⟩

/-- C10: cosineSimilarity returns exactly 0 whenever the two vectors have
different lengths, and every search hit's score is the cosine similarity of
the query embedding against some stored entry's embedding (search never
fails on a dimension mismatch — the mismatched entry just scores 0). -/
theorem c10_cosine_mismatch_zero :
    (∀ a b : List ℚ, a.length ≠ b.length → cosineSimilarity a b = 0) ∧
    (∀ (st : Storage) (emb : List ℚ) (opts : SearchOpts) (r : SearchResult),
      r ∈ searchSimilar st emb opts →
      ∃ p ∈ st.vectorIndex, r.score = cosineSimilarity emb p.2.embedding) := by
  constructor
  · intro a b h
    unfold cosineSimilarity
    rw [if_pos h]
  · intro st emb opts r hr
    obtain ⟨p, hp, hscore, _⟩ := searchSimilar_entry_of_mem hr
    exact ⟨p, hp, hscore⟩

/-- C10 witness: a 2-dimensional query against a 1-dimensional vector scores
exactly 0. -/
theorem c10_cosine_mismatch_zero_witness : cosineSimilarity [1, 2] [1] = 0 :=
  c10_cosine_mismatch_zero.1 [1, 2] [1] (by decide)

/-- C4 (counterexample): document-id generation is deterministic, so two
ingestions in the same instant collide instead of differing: a file named
"report.pdf" ingested twice at timestamp 42 gets the same id both times, and
even the distinct filenames "report 1.pdf" and "report?1.pdf" (equal after
sanitization) get identical ids. -/
theorem c4_same_instant_id_collision :
    generateDocumentId hashStub "report.pdf" 42 = generateDocumentId hashStub "report.pdf" 42 ∧
    ("report 1.pdf" ≠ "report?1.pdf") ∧
    generateDocumentId hashStub "report 1.pdf" 42 =
      generateDocumentId hashStub "report?1.pdf" 42 := by
  refine ⟨rfl, by decide, by decide⟩

/-- C4 (amended): the generated id is a pure function of the sanitized
filename and the timestamp — the hash suffix adds no randomness — so any two
ingestions whose sanitized basenames and timestamps coincide receive the
same document id (a collision), for every hash function. -/
theorem c4_id_determined_by_name_and_time (md5hex8 : String → String)
    (f1 f2 : String) (t : Nat) (h : sanitizeFilename f1 = sanitizeFilename f2) :
    generateDocumentId md5hex8 f1 t = generateDocumentId md5hex8 f2 t := by
  unfold generateDocumentId
  rw [h]

/-- C4 witness: two distinct raw filenames with equal sanitizations collide
at the same timestamp. -/
theorem c4_id_determined_witness :
    generateDocumentId hashStub "report 1.pdf" 7 = generateDocumentId hashStub "report?1.pdf" 7 :=
  c4_id_determined_by_name_and_time hashStub "report 1.pdf" "report?1.pdf" 7 (by decide)

/-- C6 (counterexample): deleting "d1" twice: the first call succeeds; the
second call completes without throwing but reports success = false with a
"Document not found" message (it does not report "no failure"), while
leaving the store and vector index unchanged. -/
theorem c6_second_delete_reports_failure :
    (mgmtDeleteDocument stDel "d1").1.success = true ∧
    (mgmtDeleteDocument (mgmtDeleteDocument stDel "d1").2 "d1").1 =
      ⟨false, "Document not found: d1"⟩ ∧
    (mgmtDeleteDocument (mgmtDeleteDocument stDel "d1").2 "d1").2 =
      (mgmtDeleteDocument stDel "d1").2 := by
  refine ⟨rfl, by decide, by decide⟩

/-- C6 (amended): a second delete of an already-deleted document leaves the
store and index unchanged and throws nothing, but reports failure (success
= false, "Document not found"); the storage-layer delete itself is
idempotent. -/
theorem c6_delete_idempotent_state (st : Storage) (documentId : String)
    (hmiss : st.docs.lookup documentId = none) :
    (validDocumentId documentId = true →
      mgmtDeleteDocument st documentId =
        (⟨false, "Document not found: " ++ documentId⟩, st)) ∧
    storageDeleteDocument (storageDeleteDocument st documentId) documentId =
      storageDeleteDocument st documentId := by
  constructor
  · intro hvalid
    unfold validDocumentId at hvalid
    rw [Bool.and_eq_true] at hvalid
    unfold mgmtDeleteDocument
    rw [if_neg (by simp_all), if_neg (by simp_all), hmiss]
  · unfold storageDeleteDocument
    simp [List.filter_filter]

/-- C6 witness: the amended theorem applied to the state after the first
delete of "d1". -/
theorem c6_delete_idempotent_state_witness :
    (validDocumentId "d1" = true →
      mgmtDeleteDocument (storageDeleteDocument stDel "d1") "d1" =
        (⟨false, "Document not found: d1"⟩, storageDeleteDocument stDel "d1")) ∧
    storageDeleteDocument (storageDeleteDocument (storageDeleteDocument stDel "d1") "d1") "d1" =
      storageDeleteDocument (storageDeleteDocument stDel "d1") "d1" :=
  c6_delete_idempotent_state (storageDeleteDocument stDel "d1") "d1" (by decide)

/-! Lemmas about batch ingestion. -/

theorem batchIngestGo_counts (env : IngestEnvironment) (cfg : ServerConfig) :
    ∀ (files : List String) (st : Storage),
      (batchIngestGo env cfg files st).1.length = files.length ∧
      (batchIngestGo env cfg files st).2.2.1 + (batchIngestGo env cfg files st).2.2.2.1 =
        files.length ∧
      (batchIngestGo env cfg files st).2.1.length = (batchIngestGo env cfg files st).2.2.2.1 ∧
      (∀ e ∈ (batchIngestGo env cfg files st).2.1, e.1 ∈ files) := by
  intro files
  induction files with
  | nil => intro st; simp [batchIngestGo]
  | cons file rest ih =>
    intro st
    simp only [batchIngestGo]
    obtain ⟨ih1, ih2, ih3, ih4⟩ := ih (ingestDocumentFile env cfg st file).2
    cases hstat : (ingestDocumentFile env cfg st file).1.status with
    | success =>
      refine ⟨by simpa using ih1, by simpa using by omega, by simpa using ih3, ?_⟩
      intro e he
      exact List.mem_cons_of_mem _ (ih4 e he)
    | error =>
      refine ⟨by simpa using ih1, by simpa using by omega, by simpa using ih3, ?_⟩
      intro e he
      rcases List.mem_cons.mp he with rfl | he'
      · exact List.mem_cons_self _ _
      · exact List.mem_cons_of_mem _ (ih4 e he')

/-- C7: batch ingestion never aborts on a single failure — every file gets a
result, successCount + failedCount = totalFiles = number of files, the error
list has one entry per failure and only names batch files; in the concrete
5-file scenario where file 3 extracts empty text, the counts are 5/4/1 with
exactly one error entry naming f3.txt. -/
theorem c7_batch_ingest_aggregation :
    (∀ (env : IngestEnvironment) (cfg : ServerConfig) (files : List String) (st : Storage),
      (batchIngest env cfg files st).1.totalFiles = files.length ∧
      (batchIngest env cfg files st).1.successCount +
        (batchIngest env cfg files st).1.failedCount = files.length ∧
      (batchIngest env cfg files st).1.documents.length = files.length ∧
      (batchIngest env cfg files st).1.errors.length =
        (batchIngest env cfg files st).1.failedCount ∧
      (∀ e ∈ (batchIngest env cfg files st).1.errors, e.1 ∈ files)) ∧
    ((batchIngest env5 cfg5 files5 ⟨[], []⟩).1.totalFiles = 5 ∧
     (batchIngest env5 cfg5 files5 ⟨[], []⟩).1.successCount = 4 ∧
     (batchIngest env5 cfg5 files5 ⟨[], []⟩).1.failedCount = 1 ∧
     (batchIngest env5 cfg5 files5 ⟨[], []⟩).1.errors =
       [("f3.txt", "Text file processing failed: File is empty")]) := by
  constructor
  · intro env cfg files st
    obtain ⟨h1, h2, h3, h4⟩ := batchIngestGo_counts env cfg files st
    exact ⟨rfl, h2, h1, h3, h4⟩
  · refine ⟨rfl, ?_, ?_, ?_⟩ <;> decide

/-! Lemmas about JS-object merge and upsert. -/

theorem lookup_append {α : Type} (l₁ l₂ : List (String × α)) (k : String) :
    (l₁ ++ l₂).lookup k =
      match l₁.lookup k with
      | some v => some v
      | none => l₂.lookup k := by
  induction l₁ with
  | nil => simp [List.lookup]
  | cons p rest ih =>
    obtain ⟨a, w⟩ := p
    cases h : (k == a) with
    | true => simp [List.lookup, h]
    | false =>
      simp only [List.cons_append, List.lookup, h]
      exact ih

theorem recMerge_mapped_lookup (base updates : List (String × MetaValue)) (k : String) :
    ((base.map (fun p =>
        match updates.lookup p.1 with
        | some v => (p.1, v)
        | none => p)).lookup k) =
      (base.lookup k).map (fun old =>
        match updates.lookup k with
        | some v => v
        | none => old) := by
  induction base with
  | nil => rfl
  | cons p rest ih =>
    obtain ⟨a, w⟩ := p
    by_cases h : k = a
    · subst h
      cases hu : updates.lookup k <;> simp [List.lookup, hu]
    · have hb : (k == a) = false := beq_eq_false_iff_ne.mpr h
      cases hu : updates.lookup a <;>
        simpa [List.lookup, hu, hb] using ih

theorem lookup_filter_of {α : Type} (l : List (String × α)) (pred : String × α → Bool)
    (k : String) (hk : ∀ v, pred (k, v) = true) :
    (l.filter pred).lookup k = l.lookup k := by
  induction l with
  | nil => rfl
  | cons p rest ih =>
    obtain ⟨a, w⟩ := p
    by_cases h : k = a
    · subst h
      simp [List.filter_cons, hk w, List.lookup]
    · have hb : (k == a) = false := beq_eq_false_iff_ne.mpr h
      cases hp : pred (a, w) <;> simp [List.filter_cons, hp, List.lookup, hb, ih]

/-- The JS spread merge looked up at any key: the updates value wins when
present, else the base value survives. -/
theorem recMerge_lookup (base updates : List (String × MetaValue)) (k : String) :
    (recMerge base updates).lookup k =
      match updates.lookup k with
      | some v => some v
      | none => base.lookup k := by
  unfold recMerge
  rw [lookup_append, recMerge_mapped_lookup]
  cases hb : base.lookup k with
  | some w =>
    cases hu : updates.lookup k <;> simp [hu]
  | none =>
    simp only [Option.map_none']
    rw [lookup_filter_of updates (fun q => (base.lookup q.1).isNone) k
      (fun v => by simp [hb])]
    cases hu : updates.lookup k <;> simp [hu]

theorem lookup_eq_none_of_not_any {α : Type} {m : List (String × α)} {k : String}
    (h : m.any (fun p => p.1 == k) = false) : m.lookup k = none := by
  induction m with
  | nil => rfl
  | cons p rest ih =>
    simp only [List.any_cons, Bool.or_eq_false_iff] at h
    have hne : ¬ p.1 = k := by simpa using h.1
    have hb : (k == p.1) = false := beq_eq_false_iff_ne.mpr (Ne.symm hne)
    simp [List.lookup, hb, ih h.2]

theorem lookup_map_overwrite {α : Type} (m : List (String × α)) (k : String) (v : α)
    (hany : m.any (fun p => p.1 == k) = true) :
    (m.map (fun p => if p.1 == k then (k, v) else p)).lookup k = some v := by
  induction m with
  | nil => simp at hany
  | cons p rest ih =>
    obtain ⟨a, w⟩ := p
    simp only [List.map_cons]
    cases hpk : ((a, w).1 == k) with
    | true =>
      rw [if_pos rfl]
      simp [List.lookup]
    | false =>
      rw [if_neg (by simp)]
      have hne : ¬ a = k := by simpa using hpk
      have hkp : (k == a) = false := beq_eq_false_iff_ne.mpr (Ne.symm hne)
      simp only [List.any_cons, hpk, Bool.false_or] at hany
      simp only [List.lookup, hkp]
      exact ih hany

theorem lookup_objSet {α : Type} (m : List (String × α)) (k : String) (v : α) :
    (objSet m k v).lookup k = some v := by
  unfold objSet
  cases hany : m.any (fun p => p.1 == k) with
  | true =>
    rw [if_pos rfl]
    exact lookup_map_overwrite m k v hany
  | false =>
    rw [if_neg (by simp)]
    rw [lookup_append, lookup_eq_none_of_not_any hany]
    simp [List.lookup]

/-- C8: for an existing document and supplied metadata within the 100KB JSON
size bound of validateMetadata, updateDocumentMetadata succeeds,
shallow-merges the supplied customMetadata into the existing one (existing
keys not mentioned are preserved, supplied keys are added or overwritten),
replaces tags wholesale with the validated new tags, and leaves content,
chunks and the other metadata untouched; merging {"author": "X"} into
{"year": 2024} yields {"year": 2024, "author": "X"}. -/
theorem c8_update_merge (st : Storage) (now : Nat) (documentId : String)
    (m : List (String × MetaValue)) (tags : List String) (document : Document)
    (hvalid : validDocumentId documentId = true)
    (hdoc : st.docs.lookup documentId = some document)
    (hsize : (jsonRecordChars m).length ≤ 100000)
    (htags : ¬ tags.length > 100) :
    ((mgmtUpdateDocumentMetadata st now documentId (some m) (some tags)).1.success = true ∧
     ∃ document',
      (mgmtUpdateDocumentMetadata st now documentId (some m) (some tags)).2.docs.lookup
        documentId = some document' ∧
      (∀ k, document'.metadata.customMetadata.lookup k =
        match m.lookup k with
        | some v => some v
        | none => document.metadata.customMetadata.lookup k) ∧
      document'.metadata.tags = (tags.map jsTrim).filter (fun tag => 0 < tag.length) ∧
      document'.metadata.fileType = document.metadata.fileType ∧
      document'.content = document.content ∧
      document'.chunks = document.chunks) ∧
    recMerge [("year", MetaValue.num 2024)] [("author", MetaValue.str "X")] =
      [("year", MetaValue.num 2024), ("author", MetaValue.str "X")] := by
  unfold validDocumentId at hvalid
  rw [Bool.and_eq_true] at hvalid
  have hv1 : (documentId == "") = false := by simpa using hvalid.1
  have hv2 : documentId.data.all (fun c => c.isAlphanum || c == '_' || c == '-') = true :=
    hvalid.2
  have hvt : validateTags tags =
      Except.ok ((tags.map jsTrim).filter (fun tag => 0 < tag.length)) := by
    unfold validateTags
    rw [if_neg htags]
  have hvm : validateMetadata m = Except.ok () := by
    unfold validateMetadata
    rw [if_neg (by omega)]
  refine ⟨?_, by decide⟩
  unfold mgmtUpdateDocumentMetadata
  rw [if_neg (by simp [hv1]), if_neg (by simp [hv2])]
  simp only [hvm, hvt, Except.map, hdoc]
  unfold chromaUpdateDocumentMetadata
  simp only [hdoc, Option.getD_some, Option.map_some']
  refine ⟨by trivial, ?_⟩
  refine ⟨_, lookup_objSet _ _ _, ?_, rfl, rfl, rfl, rfl⟩
  intro k
  exact recMerge_lookup document.metadata.customMetadata m k

/-- C8 witness: merging {"author": "X"} into the stored {"year": 2024}
document succeeds with the merged map and replaced tags. -/
theorem c8_update_merge_witness :
    ((mgmtUpdateDocumentMetadata stYear 7 "docmeta"
        (some [("author", MetaValue.str "X")]) (some ["new"])).1.success = true ∧
     ∃ document',
      (mgmtUpdateDocumentMetadata stYear 7 "docmeta"
        (some [("author", MetaValue.str "X")]) (some ["new"])).2.docs.lookup
          "docmeta" = some document' ∧
      (∀ k, document'.metadata.customMetadata.lookup k =
        match ([("author", MetaValue.str "X")] : List (String × MetaValue)).lookup k with
        | some v => some v
        | none => docYear.metadata.customMetadata.lookup k) ∧
      document'.metadata.tags = ((["new"] : List String).map jsTrim).filter
        (fun tag => 0 < tag.length) ∧
      document'.metadata.fileType = docYear.metadata.fileType ∧
      document'.content = docYear.content ∧
      document'.chunks = docYear.chunks) ∧
    recMerge [("year", MetaValue.num 2024)] [("author", MetaValue.str "X")] =
      [("year", MetaValue.num 2024), ("author", MetaValue.str "X")] :=
  c8_update_merge stYear 7 "docmeta" [("author", MetaValue.str "X")] ["new"] docYear
    (by decide) (by decide) (by decide) (by decide)

/-! Lemmas about trim idempotence, for the tag invariant. -/

theorem dropWhile_dropWhile (p : Char → Bool) (l : List Char) :
    (l.dropWhile p).dropWhile p = l.dropWhile p := by
  induction l with
  | nil => rfl
  | cons a as ih =>
    cases h : p a with
    | true => simpa [List.dropWhile_cons, h] using ih
    | false => simp [List.dropWhile_cons, h]

theorem dropWhile_isSuffix (p : Char → Bool) (l : List Char) :
    ∃ t, t ++ l.dropWhile p = l := by
  induction l with
  | nil => exact ⟨[], rfl⟩
  | cons a as ih =>
    cases h : p a with
    | true =>
      obtain ⟨t, ht⟩ := ih
      exact ⟨a :: t, by simp [List.dropWhile_cons, h, ht]⟩
    | false => exact ⟨[], by simp [List.dropWhile_cons, h]⟩

theorem dropWhile_eq_self_of_append {p : Char → Bool} {X Y r : List Char}
    (hX : X.dropWhile p = X) (hYr : Y ++ r = X) : Y.dropWhile p = Y := by
  cases Y with
  | nil => rfl
  | cons c Yt =>
    have hc : p c = false := by
      by_contra hc'
      have hc2 : p c = true := by simpa using hc'
      rw [← hYr, List.cons_append, List.dropWhile_cons, hc2, if_pos rfl] at hX
      have hlen := congrArg List.length hX
      have hle : (List.dropWhile p (Yt ++ r)).length ≤ (Yt ++ r).length :=
        (List.dropWhile_suffix p).sublist.length_le
      rw [List.length_cons] at hlen
      omega
    simp [List.dropWhile_cons, hc]

theorem trimChars_idempotent (l : List Char) :
    trimChars (trimChars l) = trimChars l := by
  have h1 : (trimChars l).dropWhile jsWS = trimChars l := by
    obtain ⟨t, ht⟩ := dropWhile_isSuffix jsWS (l.dropWhile jsWS).reverse
    have hYr : trimChars l ++ t.reverse = l.dropWhile jsWS := by
      have := congrArg List.reverse ht
      simpa [trimChars, List.reverse_append] using this
    exact dropWhile_eq_self_of_append (dropWhile_dropWhile jsWS l) hYr
  have h2 : (trimChars l).reverse.dropWhile jsWS = (trimChars l).reverse := by
    have hrev : (trimChars l).reverse = (l.dropWhile jsWS).reverse.dropWhile jsWS := by
      simp [trimChars]
    rw [hrev]
    exact dropWhile_dropWhile _ _
  show (((trimChars l).dropWhile jsWS).reverse.dropWhile jsWS).reverse = trimChars l
  rw [h1, h2, List.reverse_reverse]

theorem jsTrim_idempotent (s : String) : jsTrim (jsTrim s) = jsTrim s := by
  unfold jsTrim
  exact congrArg String.mk (trimChars_idempotent s.data)

/-- C9 (amended): every tag list accepted by validateTags contains only
trimmed, non-empty strings — but duplicates are not removed (see the
counterexample), so uniqueness is not an invariant. -/
theorem c9_tags_trimmed_nonempty (tags out : List String)
    (h : validateTags tags = Except.ok out) :
    ∀ t ∈ out, jsTrim t = t ∧ t ≠ "" := by
  unfold validateTags at h
  by_cases hlen : tags.length > 100
  · rw [if_pos hlen] at h
    exact absurd h (by simp)
  · rw [if_neg hlen] at h
    have hout := Except.ok.inj h
    subst hout
    intro t ht
    obtain ⟨hmem, hlen0⟩ := List.mem_filter.mp ht
    obtain ⟨s, hs, rfl⟩ := List.mem_map.mp hmem
    refine ⟨jsTrim_idempotent s, ?_⟩
    intro he
    rw [he] at hlen0
    simp [String.length] at hlen0

/-- C9 witness: validateTags on ["  ai ", ""] returns the trimmed, non-empty
tag "ai", and the amended theorem certifies it is trimmed and non-empty. -/
theorem c9_tags_trimmed_nonempty_witness : jsTrim "ai" = "ai" ∧ "ai" ≠ "" :=
  c9_tags_trimmed_nonempty ["  ai ", ""] ["ai"] rfl "ai" (by decide)

/-- C9 (counterexample): validateTags does not deduplicate: the input
["a", "a"] is returned unchanged, with a duplicate value. -/
theorem c9_duplicate_tags_kept :
    validateTags ["a", "a"] = Except.ok ["a", "a"] ∧
    ¬ (["a", "a"] : List String).Nodup := by
  exact ⟨rfl, by decide⟩

end AskMyDocs
